import Mathlib

/-!
Shallow embedding of `mod/host.py` (session coordinator of the mod-ui audio
plugin host).  Python strings are modelled as lists of characters (`PyStr`),
Python dicts as association lists with first-occurrence semantics, Python ints
as `Int`/`Nat`, and the exact float values manipulated by the claims (only
`0.0` and `1.0` arise) as `Rat`.  Engine commands sent over the write socket
are modelled structurally (`EngineCmd`) rather than as formatted strings;
`msg_callback` websocket broadcasts and HMI serial I/O are outputs without any
effect on session state and are not tracked.
-/

/-- Python `str`, modelled as a list of characters (code points). -/
abbrev PyStr := List Char

/-- Python `str(n)` for a natural number. -/
def natToPyStr (n : Nat) : PyStr := Nat.toDigits 10 n

/-- Python dict read `d[k]` / `d.get(k)`: first binding of the key wins. -/
def dictGet {α β : Type} [DecidableEq α] (l : List (α × β)) (k : α) : Option β :=
  match l with
  | [] => none
  | (k', v) :: rest => if k' = k then some v else dictGet rest k

/-- Python dict write `d[k] = v`: replace the first binding, or append. -/
def dictSet {α β : Type} [DecidableEq α] (l : List (α × β)) (k : α) (v : β) :
    List (α × β) :=
  match l with
  | [] => [(k, v)]
  | (k', v') :: rest => if k' = k then (k, v) :: rest else (k', v') :: dictSet rest k v

/-- Python `d.pop(k, None)`: the removed value and the remaining dict. -/
def dictPop {α β : Type} [DecidableEq α] (l : List (α × β)) (k : α) :
    Option (β × List (α × β)) :=
  match l with
  | [] => none
  | (k', v) :: rest =>
      if k' = k then some (v, rest)
      else match dictPop rest k with
           | none => none
           | some (w, rest') => some (w, (k', v) :: rest')

/-- Python `s.split(c)` for a one-character separator: empty pieces are kept. -/
def splitOnChar (c : Char) : PyStr → List PyStr
  | [] => [[]]
  | x :: xs =>
      let r := splitOnChar c xs
      if x = c then [] :: r
      else match r with
           | [] => [[x]]
           | y :: ys => (x :: y) :: ys

/-- Python `c.join(parts)` for a one-character separator. -/
def joinChar (c : Char) : List PyStr → PyStr
  | [] => []
  | [x] => x
  | x :: xs => x ++ c :: joinChar c xs

/-- Python `s.rsplit("/", 1)[0]`: everything before the last slash, or the
whole string when it has no slash. -/
def rsplitParent (s : PyStr) : PyStr :=
  let parts := splitOnChar '/' s
  if parts.length = 1 then s else joinChar '/' parts.dropLast

/-- `kMaxAddressableScalepoints = 50` (host.py line 86). -/
def kMaxAddressableScalepoints : Nat := 50

def ADDRESSING_CTYPE_LINEAR : Nat := 0
def ADDRESSING_CTYPE_BYPASS : Nat := 1
def ADDRESSING_CTYPE_TAP_TEMPO : Nat := 2
def ADDRESSING_CTYPE_ENUMERATION : Nat := 4
def ADDRESSING_CTYPE_SCALE_POINTS : Nat := 8
def ADDRESSING_CTYPE_TRIGGER : Nat := 16
def ADDRESSING_CTYPE_TOGGLED : Nat := 32
def ADDRESSING_CTYPE_LOGARITHMIC : Nat := 64
def ADDRESSING_CTYPE_INTEGER : Nat := 128

/-! ## InstanceIdMapper (host.py lines 99-133) -/

/-- The `InstanceIdMapper` class: `last_id` counter plus the two mirror maps
`id_map : id -> instance` and `instance_map : instance -> id`. -/
structure InstanceIdMapper where
  last_id : Nat
  id_map : List (Nat × PyStr)
  instance_map : List (PyStr × Nat)
deriving DecidableEq

/-- `InstanceIdMapper.clear()` / `__init__`: counter 0, both maps empty. -/
def InstanceIdMapper.clear : InstanceIdMapper := ⟨0, [], []⟩

/-- `get_id(instance)`: return the existing id, or assign `last_id`,
increment the counter and record the pair in both maps.  Returns the id and
the updated mapper. -/
def InstanceIdMapper.get_id (m : InstanceIdMapper) (instanceName : PyStr) :
    Nat × InstanceIdMapper :=
  match dictGet m.instance_map instanceName with
  | some i => (i, m)
  | none =>
      let idx := m.last_id
      (idx, ⟨m.last_id + 1, (idx, instanceName) :: m.id_map,
             (instanceName, idx) :: m.instance_map⟩)

/-- `get_id_without_creating(instance)`: plain lookup, `none` models the
`KeyError` raised on a miss.  Does not mutate the mapper. -/
def InstanceIdMapper.get_id_without_creating (m : InstanceIdMapper)
    (instanceName : PyStr) : Option Nat :=
  dictGet m.instance_map instanceName

/-- `get_instance(id)`: plain lookup, `none` models the `KeyError`. -/
def InstanceIdMapper.get_instance (m : InstanceIdMapper) (id : Nat) :
    Option PyStr :=
  dictGet m.id_map id

/-- A sequence of `get_id` calls (`get_id_without_creating` and
`get_instance` do not mutate the mapper), final state only. -/
def runGets (m : InstanceIdMapper) (l : List PyStr) : InstanceIdMapper :=
  l.foldl (fun m s => (m.get_id s).2) m

/-! ## Addressings and per-actuator rings (host.py lines 2075-2089, 2232-2277) -/

/-- The addressing dict built at host.py lines 2075-2086.  `minimum`,
`maximum` are floats in the source; the claims only use exact values, kept in
`Rat`. -/
structure Addressing where
  actuator_uri : PyStr
  instance_id : Nat
  port : PyStr
  label : PyStr
  type : Nat
  unit : PyStr
  minimum : Rat
  maximum : Rat
  steps : Int
  options : List (PyStr × PyStr)
deriving DecidableEq

/-- One entry of `self.addressings`: `{'addrs': [...], 'idx': n}`.  `idx` is a
Python int and may become negative, hence `Int`.  Generic in the element type:
the ring operations never inspect an addressing's fields. -/
structure AddressingRing (α : Type) where
  addrs : List α
  idx : Int
deriving DecidableEq

/-- Ring effect of `address()` lines 2088-2089: append the new addressing and
point `idx` at it (`len(addrs) - 1`). -/
def ringAppend {α : Type} (r : AddressingRing α) (a : α) : AddressingRing α :=
  let addrs := r.addrs ++ [a]
  { addrs := addrs, idx := (addrs.length : Int) - 1 }

/-- Ring effect of `_unaddress` lines 2268-2273: pop the addressing at its
(first) index and decrement `idx` when `idx >= index`.  The source looks the
index up with `list.index`, which raises when the element is absent; the
embedding leaves the ring unchanged in that (unreachable) case. -/
def ringUnaddress {α : Type} [DecidableEq α] (r : AddressingRing α) (a : α) :
    AddressingRing α :=
  if a ∈ r.addrs then
    let index := r.addrs.indexOf a
    { addrs := r.addrs.eraseIdx index,
      idx := if r.idx ≥ (index : Int) then r.idx - 1 else r.idx }
  else r

/-- Ring effect of `_address_next` lines 2239-2243: modular increment of
`idx` when the ring is non-empty (`hmi.control_clean` otherwise, which does
not touch the ring). -/
def ringNext {α : Type} (r : AddressingRing α) : AddressingRing α :=
  if (r.addrs.length : Int) > 0 then
    { r with idx := (r.idx + 1) % (r.addrs.length : Int) }
  else r

/-- Ring effect of `_address_prev` lines 2252-2256: modular decrement. -/
def ringPrev {α : Type} (r : AddressingRing α) : AddressingRing α :=
  if (r.addrs.length : Int) > 0 then
    { r with idx := (r.idx - 1) % (r.addrs.length : Int) }
  else r

/-- The four operations of the addressing engine, projected onto one
actuator's ring.  A full `address()` call performs an `unaddr` (of the port's
previous addressing, possibly on another ring) followed by an `addr`. -/
inductive RingOp (α : Type) where
  | addr (a : α)
  | unaddr (a : α)
  | next
  | prev

/-- One operation applied to a ring. -/
def ringStep {α : Type} [DecidableEq α] (r : AddressingRing α) :
    RingOp α → AddressingRing α
  | .addr a => ringAppend r a
  | .unaddr a => ringUnaddress r a
  | .next => ringNext r
  | .prev => ringPrev r

/-- The ring of one actuator after a sequence of operations, starting from
the `_init_addressings` state `{'idx': 0, 'addrs': []}`. -/
def runRing {α : Type} [DecidableEq α] (ops : List (RingOp α)) :
    AddressingRing α :=
  ops.foldl ringStep ⟨[], 0⟩

/-! ## Session state (class `Host`, host.py lines 135-190 and mutations) -/

/-- One whole-board preset snapshot (`pedalboard_presets` entry).  The claims
only ever observe whether the list is empty; no claimed operation inspects a
snapshot, so only its name is carried. -/
structure PedalboardPreset where
  name : PyStr
deriving DecidableEq

/-- The slice of LV2 port metadata that `add_plugin` reads from
`get_plugin_control_inputs_and_monitored_outputs(uri)['inputs']`. -/
structure PortInfo where
  symbol : PyStr
  defaultValue : Rat
  properties : List PyStr
  designation : PyStr
deriving DecidableEq

/-- The plugin record dict built by `add_plugin` (host.py lines 917-932).
The source key `instance` is a Lean keyword and is renamed `instanceName`. -/
structure PluginRecord where
  instanceName : PyStr
  uri : PyStr
  bypassed : Bool
  bypassCC : Int × Int
  x : Rat
  y : Rat
  addressings : List (PyStr × Addressing)
  midiCCs : List (PyStr × (Int × Int × Rat × Rat))
  ports : List (PyStr × Rat)
  badports : List PyStr
  designations : Option PyStr × Option PyStr
  outputs : List (PyStr × Option Rat)
  preset : PyStr
  mapPresets : List PyStr
deriving DecidableEq

/-- Engine write-channel commands sent by the modelled operations, kept
structurally instead of as `%`-formatted strings.  `disconnectJack` stands
for the direct `disconnect_jack_ports` call made by `Host.disconnect`. -/
inductive EngineCmd where
  | addCmd (uri : PyStr) (iid : Nat)
  | removeCmd (iid : Nat)
  | bypassCmd (iid : Nat) (bypassed : Bool)
  | paramSet (iid : Nat) (symbol : PyStr) (value : Rat)
  | monitorOutput (iid : Nat) (symbol : PyStr)
  | connectCmd (portFrom portTo : PyStr)
  | disconnectJack (portFrom portTo : PyStr)
deriving DecidableEq

/-- The session-state fields of class `Host` touched by the claimed
operations. -/
structure Host where
  mapper : InstanceIdMapper
  plugins : List (Nat × PluginRecord)
  connections : List (PyStr × PyStr)
  addressings : List (PyStr × AddressingRing Addressing)
  pedalboard_presets : List PedalboardPreset
  pedalboard_modified : Bool
deriving DecidableEq

/-- Result of a mutating session operation: the new state, the boolean handed
to the completion callback (`none` models an uncaught Python exception, which
leaves the mutations made so far in place), and the engine commands sent. -/
structure MutationResult where
  host : Host
  cb : Option Bool
  cmds : List EngineCmd
deriving DecidableEq

/-- `Host._fix_host_connection_port(port)` (host.py lines 1166-1186).
`none` models the `KeyError`/`IndexError` raised on an unknown instance or a
too-short path.  Under the `startswith` guards, Python's
`replace(prefix, "", 1)` equals dropping the prefix. -/
def Host.fix_host_connection_port (h : Host) (port : PyStr) : Option PyStr :=
  let data := splitOnChar '/' port
  if data.length = 3 then
    match data.get? 2 with
    | none => none
    | some p2 =>
        if p2 = "serial_midi_in".toList then some "ttymidi:MIDI_in".toList
        else if p2 = "serial_midi_out".toList then some "ttymidi:MIDI_out".toList
        else if "playback_".toList.isPrefixOf p2 ∧
                (p2.drop 9 = "1".toList ∨ p2.drop 9 = "2".toList) then
          some ("mod-host:monitor-in_".toList ++ p2.drop 9)
        else if "nooice_capture_".toList.isPrefixOf p2 then
          some ("nooice".toList ++ p2.drop 15 ++ ":nooice_capture_".toList ++ p2.drop 15)
        else some ("system:".toList ++ p2)
  else
    match data.get? 2, data.get? 3 with
    | some node, some portsymbol =>
        match h.mapper.get_id_without_creating ("/graph/".toList ++ node) with
        | some instance_id =>
            some ("effect_".toList ++ natToPyStr instance_id ++ ":".toList ++ portsymbol)
        | none => none
    | _, _ => none

/-- `Host.connect(port_from, port_to, callback)` (host.py lines 1188-1206).
`engineOk` is the boolean response of the engine to the `connect` command. -/
def Host.connect (h : Host) (port_from port_to : PyStr) (engineOk : Bool) :
    MutationResult :=
  let h := { h with pedalboard_presets := [] }
  if (port_from, port_to) ∈ h.connections then
    ⟨h, some true, []⟩
  else
    match h.fix_host_connection_port port_from, h.fix_host_connection_port port_to with
    | some pf2, some pt2 =>
        if engineOk then
          ⟨{ h with connections := h.connections ++ [(port_from, port_to)] },
           some true, [.connectCmd pf2 pt2]⟩
        else
          ⟨h, some false, [.connectCmd pf2 pt2]⟩
    | _, _ => ⟨h, none, []⟩

/-- `Host.disconnect(port_from, port_to, callback)` (host.py lines
1208-1243).  `jackOk` is the result of the `disconnect_jack_ports` call.  The
inner `host_callback(ok)` always answers `true` to the caller, and removes
the pair from `connections` only when `ok` is true. -/
def Host.disconnect (h : Host) (port_from port_to : PyStr) (jackOk : Bool) :
    MutationResult :=
  let h := { h with pedalboard_presets := [] }
  let host_callback : Bool → List EngineCmd → MutationResult := fun ok cmds =>
    if ok then
      ⟨{ h with pedalboard_modified := true,
                connections := h.connections.erase (port_from, port_to) },
       some true, cmds⟩
    else
      ⟨h, some true, cmds⟩
  if h.connections.length = 0 then
    host_callback false []
  else
    match h.fix_host_connection_port port_from with
    | none => host_callback true []
    | some pf2 =>
        match h.fix_host_connection_port port_to with
        | none => host_callback true []
        | some pt2 => host_callback jackOk [.disconnectJack pf2 pt2]

/-- `Host.bypass(instance, bypassed, callback)` (host.py lines 988-1000):
record the bypass state, send `bypass`, and when the plugin has an enabled
designation also write that port to `0.0`/`1.0` and send `param_set`.
`none` models the `KeyError` on an unknown instance. -/
def Host.bypass (h : Host) (instanceName : PyStr) (bypassed : Bool) :
    Option (Host × List EngineCmd) :=
  match h.mapper.get_id_without_creating instanceName with
  | none => none
  | some instance_id =>
      match dictGet h.plugins instance_id with
      | none => none
      | some p =>
          let p := { p with bypassed := bypassed }
          let h := { h with plugins := dictSet h.plugins instance_id p }
          let cmds := [EngineCmd.bypassCmd instance_id bypassed]
          match p.designations.1 with
          | none => some (h, cmds)
          | some enabled_symbol =>
              let value : Rat := if bypassed then 0 else 1
              let p := { p with ports := dictSet p.ports enabled_symbol value }
              some ({ h with plugins := dictSet h.plugins instance_id p },
                    cmds ++ [.paramSet instance_id enabled_symbol value])

/-- The loop of `add_plugin`'s `host_callback` over `allports['inputs']`
(host.py lines 898-915), building `valports`, `badports` and the two
designation symbols. -/
def addPluginScanInputs (inputs : List PortInfo) (bypassed : Bool) :
    List (PyStr × Rat) × List PyStr × Option PyStr × Option PyStr :=
  inputs.foldl
    (fun st port =>
      let (valports, badports, enabled_symbol, freewheel_symbol) := st
      let valports := dictSet valports port.symbol port.defaultValue
      if "notOnGUI".toList ∈ port.properties then
        (valports, badports ++ [port.symbol], enabled_symbol, freewheel_symbol)
      else if port.designation = "http://lv2plug.in/ns/lv2core#enabled".toList then
        (dictSet valports port.symbol (if bypassed then 0 else 1),
         badports ++ [port.symbol], some port.symbol, freewheel_symbol)
      else if port.designation = "http://lv2plug.in/ns/lv2core#freeWheeling".toList then
        (dictSet valports port.symbol 0,
         badports ++ [port.symbol], enabled_symbol, some port.symbol)
      else
        (valports, badports, enabled_symbol, freewheel_symbol))
    ([], [], none, none)

/-- `Host.add_plugin(instance, uri, x, y, callback)` (host.py lines
880-940).  `inputs`/`monitoredOutputs` stand for the LV2 metadata returned by
`get_plugin_control_inputs_and_monitored_outputs(uri)`, and `resp` for the
integer response of the engine to the `add` command. -/
def Host.add_plugin (h : Host) (instanceName uri : PyStr) (x y : Rat)
    (inputs : List PortInfo) (monitoredOutputs : List PyStr) (resp : Int) :
    MutationResult :=
  let h := { h with pedalboard_presets := [] }
  let (instance_id, mapper) := h.mapper.get_id instanceName
  let h := { h with mapper := mapper }
  let addCmds := [EngineCmd.addCmd uri instance_id]
  if resp < 0 then
    ⟨h, some false, addCmds⟩
  else
    let bypassed := false
    let (valports, badports, enabled_symbol, freewheel_symbol) :=
      addPluginScanInputs inputs bypassed
    let plugin : PluginRecord :=
      { instanceName := instanceName
        uri := uri
        bypassed := bypassed
        bypassCC := (-1, -1)
        x := x
        y := y
        addressings := []
        midiCCs := inputs.map (fun p => (p.symbol, (-1, -1, (0 : Rat), (1 : Rat))))
        ports := valports
        badports := badports
        designations := (enabled_symbol, freewheel_symbol)
        outputs := monitoredOutputs.map (fun symbol => (symbol, none))
        preset := []
        mapPresets := [] }
    ⟨{ h with plugins := dictSet h.plugins instance_id plugin },
     some true,
     addCmds ++ monitoredOutputs.map (.monitorOutput instance_id)⟩

/-- `Host._unaddress(pluginData, port)` (host.py lines 2258-2277): pop the
port's addressing from the plugin, pop it from its actuator's ring adjusting
`idx`, and return the actuator URI.  The source raises `KeyError` when the
ring is absent; the embedding totalises with an empty ring (unreachable:
every installed addressing targets an existing actuator ring). -/
def Host.unaddress (h : Host) (pluginData : PluginRecord) (port : PyStr) :
    PluginRecord × Host × Option PyStr :=
  match dictPop pluginData.addressings port with
  | none => (pluginData, h, none)
  | some (addressing, rest) =>
      let pluginData := { pluginData with addressings := rest }
      let actuator_uri := addressing.actuator_uri
      let ring := (dictGet h.addressings actuator_uri).getD ⟨[], 0⟩
      let ring := ringUnaddress ring addressing
      (pluginData, { h with addressings := dictSet h.addressings actuator_uri ring },
       some actuator_uri)

/-- The state effect of `Host._address_next(actuator_hw)` (host.py lines
2232-2243) on `self.addressings[uri]`: `ringNext`, with the
`_addressing_load`/`control_clean` HMI traffic carrying no session-state
change.  The source raises `KeyError` on an unknown actuator URI; the
embedding totalises with an empty ring. -/
def Host.address_next (h : Host) (uri : PyStr) : Host :=
  let ring := ringNext ((dictGet h.addressings uri).getD ⟨[], 0⟩)
  { h with addressings := dictSet h.addressings uri ring }

/-- One iteration of `remove_plugin`'s loop over the addressed symbols
(host.py lines 955-959): `_unaddress` the symbol and collect its actuator URI
once. -/
def removeUnaddressStep (st : PluginRecord × Host × List PyStr)
    (entry : PyStr × Addressing) : PluginRecord × Host × List PyStr :=
  let (pd, h, used) := st
  let (pd, h, uriOpt) := h.unaddress pd entry.1
  match uriOpt with
  | some uri => (pd, h, if uri ∈ used then used else used ++ [uri])
  | none => (pd, h, used)

/-- `Host.remove_plugin(instance, callback)` (host.py lines 942-983): clear
the board presets, pop the plugin, unaddress every addressed port collecting
each distinct actuator once, advance those actuators' rings
(`_address_next`), send `remove` (after `hmi.control_rm`, which has no state
effect), and in `host_callback` drop every connection touching the instance.
`engineOk` is the engine's response to `remove`; the connection cleanup runs
whatever its value. -/
def Host.remove_plugin (h : Host) (instanceName : PyStr) (engineOk : Bool) :
    MutationResult :=
  let h := { h with pedalboard_presets := [] }
  match h.mapper.get_id_without_creating instanceName with
  | none => ⟨h, none, []⟩
  | some instance_id =>
      match dictPop h.plugins instance_id with
      | none => ⟨h, some false, []⟩
      | some (data, plugins) =>
          let h := { h with plugins := plugins }
          let folded := data.addressings.foldl removeUnaddressStep (data, h, [])
          let h := folded.2.1
          let used_actuators := folded.2.2
          let h := used_actuators.foldl Host.address_next h
          let connections := h.connections.filter
            (fun ports =>
              ¬(rsplitParent ports.1 = instanceName ∨ rsplitParent ports.2 = instanceName))
          ⟨{ h with connections := connections }, some engineOk,
           [.removeCmd instance_id]⟩

/-! ## The `:presets` branch of `address()` (host.py lines 1980-2034) -/

/-- One entry of `get_plugin_info(uri)['presets']`. -/
structure PresetInfo where
  uri : PyStr
  label : PyStr
deriving DecidableEq

/-- The plugin/addressing fields produced when `address(.., ":presets", ..)`
installs a binding: the final `mapPresets` and `preset` of the plugin and the
`minimum`/`maximum`/`value`/`options` of the new addressing. -/
structure PresetsSetup where
  mapPresets : List PyStr
  preset : PyStr
  minimum : Int
  maximum : Int
  value : Int
  options : List (PyStr × PyStr)
deriving DecidableEq

/-- One iteration of the `for i in range(maximum)` loop of host.py lines
2008-2016, threading `(mapPresets, options, handled, value)`.  `presets.getD`
is always in bounds because `maximum ≤ presets.length`. -/
def presetScanStep (presets : List PresetInfo) (preset : PyStr)
    (st : List PyStr × List (PyStr × PyStr) × Bool × Int) (i : Nat) :
    List PyStr × List (PyStr × PyStr) × Bool × Int :=
  let (mapPresets, options, handled, value) := st
  let p := presets.getD i ⟨[], []⟩
  let mapPresets := mapPresets ++ [p.uri]
  let options := options ++ [(natToPyStr i, p.label)]
  if handled then (mapPresets, options, handled, value)
  else if preset = p.uri then (mapPresets, options, true, (i : Int))
  else (mapPresets, options, false, value)

/-- The whole `for i in range(maximum)` loop of host.py lines 2008-2016. -/
def presetScanLoop (presets : List PresetInfo) (preset : PyStr) (maximum : Nat)
    (handled0 : Bool) (value0 : Int) :
    List PyStr × List (PyStr × PyStr) × Bool × Int :=
  (List.range maximum).foldl (presetScanStep presets preset)
    ([], [], handled0, value0)

/-- The `port == ":presets"` branch of `address()` (host.py lines
1980-2034).  `presets` is `get_plugin_info(uri)['presets']` and `curPreset`
the plugin's current `preset`.  The caller-supplied `minimum`, `maximum` and
`value` are overwritten by this branch, so they are not parameters.  `none`
models the `callback(False)` early exits (no binding installed); on the
out-of-range path the source appends `presets[maximum]`, in bounds because
that path forces `presets.length > maximum`.
`addressPresetsFinish` is the part after the scan loop (host.py lines
2018-2034): the non-existent-preset bailout, the out-of-range widening, and
the assembled addressing fields. -/
def addressPresetsFinish (presets : List PresetInfo) (preset1 : PyStr)
    (scan : List PyStr × List (PyStr × PyStr) × Bool × Int) (maximum : Nat) :
    Option PresetsSetup :=
  let mapPresets := scan.1
  let options := scan.2.1
  let handled := scan.2.2.1
  let value := scan.2.2.2
  if ¬handled ∧ presets.length = maximum then
    none
  else if preset1 ∉ mapPresets then
    match presets.get? maximum with
    | none => none
    | some p =>
        some { mapPresets := mapPresets ++ [p.uri]
               preset := preset1
               minimum := 0
               maximum := (maximum : Int) + 1
               value := (maximum : Int)
               options := options ++ [(natToPyStr maximum, p.label)] }
  else
    some { mapPresets := mapPresets
           preset := preset1
           minimum := 0
           maximum := (maximum : Int)
           value := value
           options := options }

/-- The full `port == ":presets"` branch: bounds, forced preset selection,
scan loop, then `addressPresetsFinish`. -/
def addressPresets (presets : List PresetInfo) (curPreset : PyStr) :
    Option PresetsSetup :=
  let maximum : Nat := min presets.length kMaxAddressableScalepoints
  if presets.length = 0 then
    none
  else
    let start :=
      if curPreset = ([] : PyStr) then ((presets.getD 0 ⟨[], []⟩).uri, true, (0 : Int))
      else (curPreset, false, 0)
    let preset1 := start.1
    addressPresetsFinish presets preset1
      (presetScanLoop presets preset1 maximum start.2.1 start.2.2) maximum

/-! ## HMI handlers (host.py lines 2345-2387 and 2600-2614) -/

/-- The title munging of host.py line 2366:
`pb['title'].replace('"', '').upper()[:31]`.  `upper()` is modelled
per-character with `Char.toUpper` (exact on ASCII). -/
def hmiTitle (t : PyStr) : PyStr :=
  (((t.filter (fun c => c ≠ '"')).map Char.toUpper).take 31)

/-- The reply-building loop of `hmi_list_bank_pedalboards` (host.py lines
2361-2382), threading `num`, `numBytesFree` and the accumulated reply
(`none` models the initial `pedalboardsData = None`).  Returns the final
accumulator and `num`, the number of items appended. -/
def listPedalboardsLoop (pedalboards : List PyStr) (num : Nat)
    (numBytesFree : Int) (acc : Option PyStr) : Option PyStr × Nat :=
  match pedalboards with
  | [] => (acc, num)
  | pb :: rest =>
      if num > 50 then (acc, num)
      else
        let title := hmiTitle pb
        let data := '"' :: (title ++ '"' :: ' ' :: natToPyStr num)
        let dataLen : Int := data.length
        if numBytesFree - dataLen - 2 < 0 then (acc, num)
        else
          let acc := match acc with
            | none => some data
            | some s => some (s ++ ' ' :: data)
          listPedalboardsLoop rest (num + 1) (numBytesFree - (dataLen + 1)) acc

/-- `Host.hmi_list_bank_pedalboards(bank_id, callback)` (host.py lines
2345-2387).  A bank is represented by the list of its pedalboard titles;
`allpedalboards` is the "All" pseudo-bank (`bank_id = 0`).  Returns the
ok-flag and the reply handed to the callback, plus the item count from the
loop. -/
def hmi_list_bank_pedalboards (allpedalboards : List PyStr)
    (banks : List (List PyStr)) (bank_id : Int) : Bool × PyStr × Nat :=
  if bank_id < 0 ∨ bank_id > (banks.length : Int) then
    (false, [], 0)
  else
    let pedalboards :=
      if bank_id = 0 then allpedalboards
      else banks.getD (bank_id - 1).toNat []
    let (pedalboardsData, num) :=
      listPedalboardsLoop pedalboards 0 (1024 - 64) none
    (true, pedalboardsData.getD [], num)

/-- `Host.hmi_tuner_input(input_port, callback)` (host.py lines 2600-2614).
The guard is Python's chained comparison `0 <= input_port > 2`, i.e.
`0 ≤ input_port ∧ input_port > 2`.  Result: new `current_tuner_port`, the
callback boolean, and the capture ports handed to
`disconnect_jack_ports`/`connect_jack_ports` (in that order). -/
def hmi_tuner_input (current_tuner_port : Int) (input_port : Int) :
    Int × Bool × List (Int × Int) :=
  if 0 ≤ input_port ∧ input_port > 2 then
    (current_tuner_port, false, [])
  else
    (input_port, true, [(current_tuner_port, input_port)])

/-! ## Proofs: ring cursor invariant (C1) and ring cycling (C8) -/

/-- The invariant the ring cursor actually maintains: `idx` never drops below
`-1`, and stays below `len(addrs)` whenever the ring is non-empty. -/
def RingInv {α : Type} (r : AddressingRing α) : Prop :=
  -1 ≤ r.idx ∧ (r.addrs ≠ [] → r.idx < (r.addrs.length : Int))

theorem ringStep_inv {α : Type} [DecidableEq α] {r : AddressingRing α}
    (h : RingInv r) (op : RingOp α) : RingInv (ringStep r op) := by
  obtain ⟨h1, h2⟩ := h
  cases op with
  | addr a =>
      constructor
      · simp [ringStep, ringAppend]
        omega
      · intro _
        simp [ringStep, ringAppend]
  | unaddr a =>
      simp only [ringStep, ringUnaddress]
      split
      · next hmem =>
          have hidx : r.addrs.indexOf a < r.addrs.length :=
            List.indexOf_lt_length.mpr hmem
          have hne : r.addrs ≠ [] := by
            intro he; rw [he] at hmem; simp at hmem
          have hlt := h2 hne
          have hlen : (r.addrs.eraseIdx (r.addrs.indexOf a)).length =
              r.addrs.length - 1 := by
            rw [List.length_eraseIdx]; simp [hidx]
          constructor
          · simp only
            split <;> omega
          · intro hne2
            have hpos : 0 < (r.addrs.eraseIdx (r.addrs.indexOf a)).length :=
              List.length_pos.mpr hne2
            simp only [hlen] at hpos ⊢
            split <;> omega
      · exact ⟨h1, h2⟩
  | next =>
      simp only [ringStep, ringNext]
      split
      · next hpos =>
          refine ⟨?_, fun _ => ?_⟩
          · have := Int.emod_nonneg (r.idx + 1) (by omega : (r.addrs.length : Int) ≠ 0)
            dsimp only
            omega
          · exact Int.emod_lt_of_pos _ hpos
      · exact ⟨h1, h2⟩
  | prev =>
      simp only [ringStep, ringPrev]
      split
      · next hpos =>
          refine ⟨?_, fun _ => ?_⟩
          · have := Int.emod_nonneg (r.idx - 1) (by omega : (r.addrs.length : Int) ≠ 0)
            dsimp only
            omega
          · exact Int.emod_lt_of_pos _ hpos
      · exact ⟨h1, h2⟩

theorem foldl_ringStep_inv {α : Type} [DecidableEq α] (ops : List (RingOp α)) :
    ∀ r : AddressingRing α, RingInv r → RingInv (ops.foldl ringStep r) := by
  induction ops with
  | nil => intro r h; exact h
  | cons op rest ih => intro r h; exact ih _ (ringStep_inv h op)

/-- C1 (amended): after any sequence of `address` / `_unaddress` /
`_address_next` / `_address_prev` ring operations from the initial state, the
cursor satisfies `-1 ≤ idx`, and `idx < len(addrs)` whenever the ring is
non-empty.  The lower bound `0 ≤ idx` claimed by the spec does not hold: see
the counterexample, where `_unaddress` of the entry at `idx = 0` leaves
`idx = -1` on a still non-empty ring (Python's negative indexing then reads
the last element). -/
theorem ring_idx_bounds {α : Type} [DecidableEq α] (ops : List (RingOp α)) :
    -1 ≤ (runRing ops).idx ∧
      ((runRing ops).addrs ≠ [] →
        (runRing ops).idx < ((runRing ops).addrs.length : Int)) :=
  foldl_ringStep_inv ops ⟨[], 0⟩ ⟨by norm_num, by intro h; simp at h⟩

/-- Witness for `ring_idx_bounds` at the concrete one-operation sequence
`[addr "a"]`, whose ring is non-empty. -/
theorem ring_idx_bounds_witness :
    -1 ≤ (runRing [RingOp.addr "a".toList]).idx ∧
      (runRing [RingOp.addr "a".toList]).idx <
        ((runRing [RingOp.addr "a".toList]).addrs.length : Int) :=
  ⟨(ring_idx_bounds [RingOp.addr "a".toList]).1,
   (ring_idx_bounds [RingOp.addr "a".toList]).2 (by decide)⟩

/-- C1 counterexample: address two bindings on one actuator, `_address_next`
(cursor back to index 0), then `_unaddress` the first binding.  The ring
still holds one addressing but `idx = -1 < 0`, refuting
`0 ≤ idx < len(addrs)` for non-empty rings. -/
theorem ring_idx_negative_counterexample :
    (runRing [RingOp.addr "a".toList, RingOp.addr "b".toList, RingOp.next,
        RingOp.unaddr "a".toList]).addrs ≠ [] ∧
      (runRing [RingOp.addr "a".toList, RingOp.addr "b".toList, RingOp.next,
        RingOp.unaddr "a".toList]).idx < 0 := by
  decide

theorem ringNext_addrs {α : Type} (r : AddressingRing α) :
    (ringNext r).addrs = r.addrs := by
  unfold ringNext; split <;> rfl

/-- C8: `_address_next` applied `n` times to a ring of size `n > 0` with
`0 ≤ idx < n` returns `idx` (and the ring) to its original value. -/
theorem address_next_cycle {α : Type} (r : AddressingRing α) (n : Nat)
    (hlen : r.addrs.length = n) (hpos : 0 < n)
    (h0 : 0 ≤ r.idx) (hlt : r.idx < (n : Int)) :
    (ringNext^[n] r).idx = r.idx ∧ (ringNext^[n] r).addrs = r.addrs := by
  have key : ∀ k : Nat, (ringNext^[k] r).addrs = r.addrs ∧
      (ringNext^[k] r).idx = (r.idx + k) % (n : Int) := by
    intro k
    induction k with
    | zero =>
        refine ⟨rfl, ?_⟩
        simp [Int.emod_eq_of_lt h0 hlt]
    | succ k ih =>
        obtain ⟨iha, ihi⟩ := ih
        rw [Function.iterate_succ_apply']
        refine ⟨by rw [ringNext_addrs, iha], ?_⟩
        rw [ringNext]
        have hlen' : ((ringNext^[k] r).addrs.length : Int) = (n : Int) := by
          rw [iha, hlen]
        rw [if_pos (by rw [hlen']; exact_mod_cast hpos)]
        simp only [hlen', ihi]
        rw [Int.emod_add_emod]
        push_cast
        ring_nf
  obtain ⟨ka, ki⟩ := key n
  refine ⟨?_, ka⟩
  rw [ki]
  have hdrop : (r.idx + (n : Int)) % (n : Int) = r.idx % (n : Int) := by
    have h := Int.add_mul_emod_self_left r.idx (n : Int) 1
    simp only [mul_one] at h
    exact h
  rw [hdrop, Int.emod_eq_of_lt h0 hlt]

/-- Witness for `address_next_cycle` on the concrete three-element ring
`["a","b","c"]` with cursor 1. -/
theorem address_next_cycle_witness :
    (ringNext^[3] (⟨["a".toList, "b".toList, "c".toList], 1⟩ :
        AddressingRing PyStr)).idx = 1 ∧
      (ringNext^[3] (⟨["a".toList, "b".toList, "c".toList], 1⟩ :
        AddressingRing PyStr)).addrs = ["a".toList, "b".toList, "c".toList] :=
  address_next_cycle ⟨["a".toList, "b".toList, "c".toList], 1⟩ 3
    (by decide) (by decide) (by decide) (by decide)

/-! ## Proofs: `:presets` mapPresets bound (C3) -/

theorem presetScanStep_length (presets : List PresetInfo) (preset : PyStr)
    (st : List PyStr × List (PyStr × PyStr) × Bool × Int) (i : Nat) :
    (presetScanStep presets preset st i).1.length = st.1.length + 1 := by
  rcases st with ⟨mp, opts, handled, value⟩
  unfold presetScanStep
  dsimp only
  split_ifs <;> simp

theorem presetScanLoop_length (presets : List PresetInfo) (preset : PyStr)
    (maximum : Nat) (handled0 : Bool) (value0 : Int) :
    (presetScanLoop presets preset maximum handled0 value0).1.length = maximum := by
  unfold presetScanLoop
  induction maximum with
  | zero => rfl
  | succ n ih =>
      have hr : List.range (n + 1) = List.range n ++ [n] := by
        simpa using List.range_succ (n := n)
      rw [hr, List.foldl_append, List.foldl_cons, List.foldl_nil,
        presetScanStep_length, ih]

theorem addressPresetsFinish_length (presets : List PresetInfo)
    (preset1 : PyStr) (scan : List PyStr × List (PyStr × PyStr) × Bool × Int)
    (maximum : Nat) (s : PresetsSetup)
    (hlen : scan.1.length = maximum)
    (hmax : maximum ≤ kMaxAddressableScalepoints)
    (h : addressPresetsFinish presets preset1 scan maximum = some s) :
    s.mapPresets.length ≤ kMaxAddressableScalepoints + 1 := by
  unfold addressPresetsFinish at h
  dsimp only at h
  by_cases hb1 : (¬scan.2.2.1 = true ∧ presets.length = maximum)
  · rw [if_pos hb1] at h; cases h
  · rw [if_neg hb1] at h
    by_cases hb2 : preset1 ∈ scan.1
    · rw [if_neg (not_not_intro hb2)] at h
      cases h
      simpa [hlen] using Nat.le_succ_of_le hmax
    · rw [if_pos hb2] at h
      rcases hget : presets.get? maximum with _ | p <;> rw [hget] at h
      · cases h
      · cases h
        simp [hlen]
        omega

/-- C3 (amended): whenever `address(.., ":presets", ..)` installs a binding,
the plugin's `mapPresets` has length at most
`kMaxAddressableScalepoints + 1 = 51`: the scan loop stores at most 50
presets, and the out-of-range widening appends one more entry — namely
`presets[50]`, not necessarily the currently loaded preset — for a total of
51.  The bound 50 stated by the spec fails in the widening case, see the
counterexample. -/
theorem mapPresets_length_le (presets : List PresetInfo) (curPreset : PyStr)
    (s : PresetsSetup) (h : addressPresets presets curPreset = some s) :
    s.mapPresets.length ≤ kMaxAddressableScalepoints + 1 := by
  unfold addressPresets at h
  by_cases h0 : presets.length = 0
  · rw [if_pos h0] at h; cases h
  · rw [if_neg h0] at h
    dsimp only at h
    exact addressPresetsFinish_length _ _ _ _ _
      (presetScanLoop_length _ _ _ _ _) (min_le_right _ _) h

/-- Witness for `mapPresets_length_le` on a one-preset plugin with no preset
selected yet. -/
theorem mapPresets_length_witness :
    ({ mapPresets := ["u".toList], preset := "u".toList, minimum := 0,
       maximum := 1, value := 0,
       options := [("0".toList, "l".toList)] } : PresetsSetup).mapPresets.length ≤
      kMaxAddressableScalepoints + 1 :=
  mapPresets_length_le [⟨"u".toList, "l".toList⟩] [] _ (by decide)

/-- C3 counterexample: a plugin with 51 presets whose current preset is the
51st.  `address(.., ":presets", ..)` installs a binding whose `mapPresets`
holds `kMaxAddressableScalepoints + 1 = 51` entries, refuting the claimed
bound of 50. -/
theorem mapPresets_exceeds_50_counterexample :
    (addressPresets ((List.range 51).map (fun i => ⟨natToPyStr i, natToPyStr i⟩))
        (natToPyStr 50)).map (fun s => s.mapPresets.length) =
      some (kMaxAddressableScalepoints + 1) ∧
      ¬(kMaxAddressableScalepoints + 1 ≤ kMaxAddressableScalepoints) := by
  decide

/-! ## Proofs: HMI pedalboard listing (C4) -/

theorem listPedalboardsLoop_count (pbs : List PyStr) :
    ∀ (num : Nat) (bf : Int) (acc : Option PyStr), num ≤ 51 →
      (listPedalboardsLoop pbs num bf acc).2 ≤ 51 := by
  induction pbs with
  | nil => intro num bf acc h; exact h
  | cons pb rest ih =>
      intro num bf acc h
      unfold listPedalboardsLoop
      by_cases h50 : num > 50
      · rw [if_pos h50]; exact h
      · rw [if_neg h50]
        dsimp only
        split
        · exact h
        · exact ih (num + 1) _ _ (by omega)

theorem listPedalboardsLoop_size (pbs : List PyStr) :
    ∀ (num : Nat) (bf : Int) (acc : Option PyStr),
      0 ≤ bf → ((acc.getD []).length : Int) + bf ≤ 960 →
      (((listPedalboardsLoop pbs num bf acc).1.getD []).length : Int) ≤ 960 := by
  induction pbs with
  | nil => intro num bf acc hbf hsum; dsimp [listPedalboardsLoop]; omega
  | cons pb rest ih =>
      intro num bf acc hbf hsum
      unfold listPedalboardsLoop
      by_cases h50 : num > 50
      · rw [if_pos h50]; dsimp only; omega
      · rw [if_neg h50]
        dsimp only
        split
        · dsimp only; omega
        · next hbytes =>
            rcases acc with _ | s
            · apply ih
              · simp only [Option.getD_none, List.length_nil] at hsum
                omega
              · simp only [Option.getD_some]
                simp only [Option.getD_none, List.length_nil] at hsum
                omega
            · apply ih
              · simp only [Option.getD_some] at hsum
                omega
              · simp only [Option.getD_some, List.length_append,
                  List.length_cons] at hsum ⊢
                push_cast at hsum ⊢
                omega

theorem hmiTitle_length_le (t : PyStr) : (hmiTitle t).length ≤ 31 := by
  unfold hmiTitle
  rw [List.length_take]
  omega

theorem hmiTitle_chars (t : PyStr) (c : Char) (hc : c ∈ hmiTitle t) :
    ∃ c', c' ∈ t ∧ c' ≠ '"' ∧ c = c'.toUpper := by
  unfold hmiTitle at hc
  have h1 := List.take_subset 31 _ hc
  obtain ⟨c', hc', he⟩ := List.mem_map.mp h1
  obtain ⟨hmem, hne⟩ := List.mem_filter.mp hc'
  exact ⟨c', hmem, by simpa using hne, he.symm⟩

/-- C4 (amended): `hmi_list_bank_pedalboards` replies with at most 51 items
(the loop breaks only once `num > 50`, so items 0..50 all fit), the
accumulated reply never exceeds the 960-byte budget, and every title is
built by stripping `"` characters, upper-casing, and truncating to 31
characters.  The claimed bound of 50 items fails, see the counterexample. -/
theorem hmi_list_bank_pedalboards_bounds (allpedalboards : List PyStr)
    (banks : List (List PyStr)) (bank_id : Int) :
    (hmi_list_bank_pedalboards allpedalboards banks bank_id).2.2 ≤ 51 ∧
      (hmi_list_bank_pedalboards allpedalboards banks bank_id).2.1.length ≤ 960 ∧
      (∀ t : PyStr, (hmiTitle t).length ≤ 31 ∧
        ∀ c ∈ hmiTitle t, ∃ c', c' ∈ t ∧ c' ≠ '"' ∧ c = c'.toUpper) := by
  refine ⟨?_, ?_, fun t => ⟨hmiTitle_length_le t, fun c hc => hmiTitle_chars t c hc⟩⟩
  · unfold hmi_list_bank_pedalboards
    split
    · simp
    · dsimp only
      exact listPedalboardsLoop_count _ 0 _ none (by omega)
  · unfold hmi_list_bank_pedalboards
    split
    · simp
    · dsimp only
      have h := listPedalboardsLoop_size
        (if bank_id = 0 then allpedalboards else banks.getD (bank_id - 1).toNat [])
        0 (1024 - 64) none (by omega) (by simp)
      exact_mod_cast h

/-- Witness for `hmi_list_bank_pedalboards_bounds` on a one-board bank,
discharging the character-membership hypothesis at `'B' ∈ hmiTitle "Board"`. -/
theorem hmi_list_bank_pedalboards_witness :
    (hmi_list_bank_pedalboards ["Board".toList] [] 0).2.2 ≤ 51 ∧
      (hmiTitle "Board".toList).length ≤ 31 ∧
      ∃ c', c' ∈ "Board".toList ∧ c' ≠ '"' ∧ 'B' = c'.toUpper :=
  ⟨(hmi_list_bank_pedalboards_bounds ["Board".toList] [] 0).1,
   ((hmi_list_bank_pedalboards_bounds ["Board".toList] [] 0).2.2 "Board".toList).1,
   ((hmi_list_bank_pedalboards_bounds ["Board".toList] [] 0).2.2 "Board".toList).2
     'B' (by decide)⟩

/-- C4 counterexample: 52 pedalboards with one-character titles.  The loop
emits items numbered 0..50 — 51 of them — before the `num > 50` break fires,
refuting the claimed bound of 50 items. -/
theorem hmi_list_51_items_counterexample :
    (hmi_list_bank_pedalboards (List.replicate 52 "A".toList) [] 0).2.2 = 51 ∧
      ¬((hmi_list_bank_pedalboards (List.replicate 52 "A".toList) [] 0).2.2 ≤ 50) := by
  decide

/-! ## Proofs: tuner input guard (C5) -/

/-- C5: behaviour of `hmi_tuner_input` at the failing input `input_port = 0`
(with `current_tuner_port = 1`).  Python's chained guard
`0 <= input_port > 2` only rejects ports above 2, so port 0 slips through:
the tuner is rewired to `capture_0`, `current_tuner_port` becomes 0 and the
callback receives `true` — against the intended bounds `1..2`.  A port above
the range (3) is rejected as intended. -/
theorem hmi_tuner_input_accepts_port_zero :
    hmi_tuner_input 1 0 = (0, true, [(1, 0)]) ∧
      hmi_tuner_input 1 3 = (1, false, []) := by decide

/-! ## Proofs: instance-id mapper (C6) -/

/-- The mapper invariant: the two maps mirror each other, and every recorded
id is below `last_id`. -/
def MapperInv (m : InstanceIdMapper) : Prop :=
  (∀ i s, dictGet m.id_map i = some s ↔ dictGet m.instance_map s = some i) ∧
  (∀ i s, dictGet m.id_map i = some s → i < m.last_id)

theorem mapperInv_clear : MapperInv InstanceIdMapper.clear := by
  constructor
  · intro i s
    simp [InstanceIdMapper.clear, dictGet]
  · intro i s h
    simp [InstanceIdMapper.clear, dictGet] at h

theorem get_id_inv {m : InstanceIdMapper} (h : MapperInv m) (s : PyStr) :
    MapperInv (m.get_id s).2 := by
  obtain ⟨hA, hB⟩ := h
  unfold InstanceIdMapper.get_id
  rcases hg : dictGet m.instance_map s with _ | j
  · dsimp only
    constructor
    · intro i t
      simp only [dictGet]
      by_cases hi : m.last_id = i
      · subst hi
        rw [if_pos rfl]
        by_cases ht : s = t
        · subst ht
          simp
        · rw [if_neg ht]
          constructor
          · intro he
            exact absurd (Option.some.inj he) ht
          · intro he
            have := hB m.last_id t ((hA m.last_id t).mpr he)
            omega
      · rw [if_neg hi]
        by_cases ht : s = t
        · subst ht
          rw [if_pos rfl]
          constructor
          · intro he
            have := (hA i s).mp he
            rw [this] at hg
            cases hg
          · intro he
            have hij := Option.some.inj he
            omega
        · rw [if_neg ht]
          exact hA i t
    · intro i t
      simp only [dictGet]
      by_cases hi : m.last_id = i
      · intro _
        omega
      · rw [if_neg hi]
        intro he
        have := hB i t he
        omega
  · exact ⟨hA, hB⟩

theorem get_id_lookup_self {m : InstanceIdMapper} (h : MapperInv m) (s : PyStr) :
    dictGet (m.get_id s).2.id_map (m.get_id s).1 = some s := by
  unfold InstanceIdMapper.get_id
  rcases hg : dictGet m.instance_map s with _ | j
  · simp [dictGet]
  · exact (h.1 j s).mpr hg

theorem get_id_preserves {m : InstanceIdMapper} (h : MapperInv m)
    {i : Nat} {s : PyStr} (hl : dictGet m.id_map i = some s) (t : PyStr) :
    dictGet (m.get_id t).2.id_map i = some s := by
  unfold InstanceIdMapper.get_id
  rcases hg : dictGet m.instance_map t with _ | j
  · have hlt := h.2 i s hl
    simp only [dictGet]
    rw [if_neg (by omega)]
    exact hl
  · exact hl

theorem runGets_inv {m : InstanceIdMapper} (h : MapperInv m) (l : List PyStr) :
    MapperInv (runGets m l) := by
  induction l generalizing m with
  | nil => exact h
  | cons s rest ih => exact ih (get_id_inv h s)

theorem runGets_preserves {m : InstanceIdMapper} (h : MapperInv m)
    {i : Nat} {s : PyStr} (hl : dictGet m.id_map i = some s) (l : List PyStr) :
    dictGet (runGets m l).id_map i = some s := by
  induction l generalizing m with
  | nil => exact hl
  | cons t rest ih => exact ih (get_id_inv h t) (get_id_preserves h hl t)

theorem runGets_last_le (m : InstanceIdMapper) (l : List PyStr) :
    m.last_id ≤ (runGets m l).last_id := by
  induction l generalizing m with
  | nil => exact le_refl _
  | cons s rest ih =>
      refine le_trans ?_ (ih (m.get_id s).2)
      unfold InstanceIdMapper.get_id
      rcases dictGet m.instance_map s with _ | j <;> simp

/-- C6: after any sequence of `get_id` calls from a cleared mapper
(`get_id_without_creating` does not mutate), (1) an id once returned by
`get_id(s)` keeps resolving to `s` through `get_instance` after any further
calls, (2) distinct instances hold distinct ids, and (3) `last_id` never
decreases. -/
theorem instance_id_mapper_spec :
    (∀ (l0 : List PyStr) (s : PyStr) (l1 : List PyStr),
      (runGets ((runGets InstanceIdMapper.clear l0).get_id s).2 l1).get_instance
          ((runGets InstanceIdMapper.clear l0).get_id s).1 = some s) ∧
    (∀ (l : List PyStr) (s t : PyStr) (i j : Nat), s ≠ t →
      dictGet (runGets InstanceIdMapper.clear l).instance_map s = some i →
      dictGet (runGets InstanceIdMapper.clear l).instance_map t = some j →
      i ≠ j) ∧
    (∀ (m : InstanceIdMapper) (l : List PyStr),
      m.last_id ≤ (runGets m l).last_id) := by
  refine ⟨?_, ?_, runGets_last_le⟩
  · intro l0 s l1
    have h0 : MapperInv (runGets InstanceIdMapper.clear l0) :=
      runGets_inv mapperInv_clear l0
    have h1 : MapperInv ((runGets InstanceIdMapper.clear l0).get_id s).2 :=
      get_id_inv h0 s
    exact runGets_preserves h1 (get_id_lookup_self h0 s) l1
  · intro l s t i j hst hs ht
    have h0 : MapperInv (runGets InstanceIdMapper.clear l) :=
      runGets_inv mapperInv_clear l
    intro hij
    subst hij
    have h1 : dictGet (runGets InstanceIdMapper.clear l).id_map i = some s :=
      (h0.1 i s).mpr hs
    have h2 : dictGet (runGets InstanceIdMapper.clear l).id_map i = some t :=
      (h0.1 i t).mpr ht
    rw [h1] at h2
    exact hst (Option.some.inj h2)

/-- Witness for `instance_id_mapper_spec`: after registering "a" then "b",
the id of "a" still resolves, the two ids 0 and 1 differ, and `last_id` did
not decrease. -/
theorem instance_id_mapper_spec_witness :
    ((runGets ((runGets InstanceIdMapper.clear []).get_id "a".toList).2
        ["b".toList]).get_instance
      ((runGets InstanceIdMapper.clear []).get_id "a".toList).1 =
        some "a".toList) ∧
      (0 : Nat) ≠ 1 ∧
      InstanceIdMapper.clear.last_id ≤
        (runGets InstanceIdMapper.clear ["a".toList]).last_id :=
  ⟨instance_id_mapper_spec.1 [] "a".toList ["b".toList],
   instance_id_mapper_spec.2.1 ["a".toList, "b".toList] "a".toList "b".toList
     0 1 (by decide) (by decide) (by decide),
   instance_id_mapper_spec.2.2 InstanceIdMapper.clear ["a".toList]⟩

/-! ## Proofs: bypass and the enabled designation (C7) -/

theorem dictGet_dictSet_self {α β : Type} [DecidableEq α] (l : List (α × β))
    (k : α) (v : β) : dictGet (dictSet l k v) k = some v := by
  induction l with
  | nil => simp [dictSet, dictGet]
  | cons p rest ih =>
      rcases p with ⟨k', v'⟩
      by_cases hk : k' = k
      · simp [dictSet, dictGet, hk]
      · simp [dictSet, dictGet, hk, ih]

/-- C7: for a plugin whose designations carry an enabled symbol, `bypass`
records the bypass flag, writes `ports[enabled_symbol] = 1.0 - bypassed`
(`0.0` when bypassed, `1.0` when not), and sends the `bypass` command
followed by a `param_set` for that symbol. -/
theorem bypass_sets_enabled_designation (h : Host) (instanceName : PyStr)
    (b : Bool) (iid : Nat) (p : PluginRecord) (sym : PyStr)
    (hm : h.mapper.get_id_without_creating instanceName = some iid)
    (hp : dictGet h.plugins iid = some p)
    (hd : p.designations.1 = some sym) :
    (Host.bypass h instanceName b).map
        (fun rc => ((dictGet rc.1.plugins iid).map PluginRecord.bypassed,
          (dictGet rc.1.plugins iid).bind (fun q => dictGet q.ports sym),
          rc.2)) =
      some (some b, some (1 - (if b then (1 : Rat) else 0)),
        [EngineCmd.bypassCmd iid b,
         EngineCmd.paramSet iid sym (if b then (0 : Rat) else 1)]) := by
  unfold Host.bypass
  rw [hm]
  dsimp only
  rw [hp]
  dsimp only
  rw [hd]
  simp [dictGet_dictSet_self]
  cases b <;> norm_num

/-- Example plugin for the C7 witness: one enabled-designated port `en`. -/
def pluginEx : PluginRecord :=
  { instanceName := "/graph/gain_1".toList
    uri := "urn:ex:gain".toList
    bypassed := false
    bypassCC := (-1, -1)
    x := 10
    y := 20
    addressings := []
    midiCCs := [("en".toList, (-1, -1, 0, 1))]
    ports := [("en".toList, 1)]
    badports := ["en".toList]
    designations := (some "en".toList, none)
    outputs := []
    preset := []
    mapPresets := [] }

/-- Example host for the C7 witness: `pluginEx` registered under id 0. -/
def hostEx : Host :=
  { mapper := ⟨1, [(0, "/graph/gain_1".toList)], [("/graph/gain_1".toList, 0)]⟩
    plugins := [(0, pluginEx)]
    connections := []
    addressings := []
    pedalboard_presets := []
    pedalboard_modified := false }

/-- Witness for `bypass_sets_enabled_designation` at `hostEx`, bypassing
`/graph/gain_1`. -/
theorem bypass_sets_enabled_designation_witness :
    (Host.bypass hostEx "/graph/gain_1".toList true).map
        (fun rc => ((dictGet rc.1.plugins 0).map PluginRecord.bypassed,
          (dictGet rc.1.plugins 0).bind (fun q => dictGet q.ports "en".toList),
          rc.2)) =
      some (some true, some (1 - (if true then (1 : Rat) else 0)),
        [EngineCmd.bypassCmd 0 true,
         EngineCmd.paramSet 0 "en".toList (if true then (0 : Rat) else 1)]) :=
  bypass_sets_enabled_designation hostEx "/graph/gain_1".toList true 0 pluginEx
    "en".toList (by decide) (by decide) (by decide)

/-! ## Proofs: connect idempotence (C9) and best-effort disconnect (C2) -/

/-- C9: when the pair is already in `connections`, `connect` answers `true`,
sends no engine command, and leaves the connection list unchanged (it still
clears the board presets at entry, like every mutation). -/
theorem connect_idempotent (h : Host) (pf pt : PyStr) (engineOk : Bool)
    (hmem : (pf, pt) ∈ h.connections) :
    Host.connect h pf pt engineOk =
      ⟨{ h with pedalboard_presets := [] }, some true, []⟩ := by
  unfold Host.connect
  simp [hmem]

/-- Example host for the C9 and C2 witnesses: one connection, one board
preset. -/
def hostCx : Host :=
  { mapper := InstanceIdMapper.clear
    plugins := []
    connections := [("/graph/foo".toList, "/graph/bar".toList)]
    addressings := []
    pedalboard_presets := [⟨"Default".toList⟩]
    pedalboard_modified := false }

/-- Witness for `connect_idempotent` at `hostCx` and its existing edge. -/
theorem connect_idempotent_witness :
    Host.connect hostCx "/graph/foo".toList "/graph/bar".toList true =
      ⟨{ hostCx with pedalboard_presets := [] }, some true, []⟩ :=
  connect_idempotent hostCx "/graph/foo".toList "/graph/bar".toList true
    (by decide)

theorem fix_presets_irrelevant (h : Host) (l : List PedalboardPreset) (p : PyStr) :
    Host.fix_host_connection_port { h with pedalboard_presets := l } p =
      h.fix_host_connection_port p := rfl

/-- C2 (amended): `disconnect` always hands `true` to its completion
callback, but the pair is dropped from `connections` only when the engine
disconnect succeeds (or an endpoint no longer resolves); when both endpoints
resolve and the engine reports failure, the connection stays in state. -/
theorem disconnect_best_effort (h : Host) (pf pt : PyStr) (jackOk : Bool) :
    (Host.disconnect h pf pt jackOk).cb = some true ∧
      (jackOk = false → (h.fix_host_connection_port pf).isSome →
        (h.fix_host_connection_port pt).isSome →
        (Host.disconnect h pf pt jackOk).host.connections = h.connections) ∧
      (jackOk = true →
        (Host.disconnect h pf pt jackOk).host.connections =
          h.connections.erase (pf, pt)) := by
  unfold Host.disconnect
  dsimp only
  by_cases hc : h.connections.length = 0
  · have hnil : h.connections = [] := List.length_eq_zero.mp hc
    simp [hc, hnil]
  · rw [if_neg hc]
    rcases hf : Host.fix_host_connection_port
        { h with pedalboard_presets := [] } pf with _ | pf2
    · rw [fix_presets_irrelevant] at hf
      simp [hf]
    · rcases ht : Host.fix_host_connection_port
          { h with pedalboard_presets := [] } pt with _ | pt2
      · rw [fix_presets_irrelevant] at ht
        simp [hf, ht]
      · cases jackOk <;> simp [hf, ht]

/-- Witness for `disconnect_best_effort` at `hostCx`: with both endpoints
resolving, an engine failure keeps the edge while a success erases it, and
the callback answer is `true`. -/
theorem disconnect_best_effort_witness :
    (Host.disconnect hostCx "/graph/foo".toList "/graph/bar".toList
          false).host.connections = hostCx.connections ∧
      (Host.disconnect hostCx "/graph/foo".toList "/graph/bar".toList
          true).host.connections =
        hostCx.connections.erase ("/graph/foo".toList, "/graph/bar".toList) ∧
      (Host.disconnect hostCx "/graph/foo".toList "/graph/bar".toList
          false).cb = some true :=
  ⟨(disconnect_best_effort hostCx "/graph/foo".toList "/graph/bar".toList
      false).2.1 rfl (by decide) (by decide),
   (disconnect_best_effort hostCx "/graph/foo".toList "/graph/bar".toList
      true).2.2 rfl,
   (disconnect_best_effort hostCx "/graph/foo".toList "/graph/bar".toList
      false).1⟩

/-- C2 counterexample: on `hostCx`, `disconnect` of the present edge with the
engine reporting failure answers `true` but leaves the pair in
`connections`, refuting the claim that the pair is removed even on engine
failure. -/
theorem disconnect_failure_keeps_connection :
    Host.disconnect hostCx "/graph/foo".toList "/graph/bar".toList false =
      ⟨⟨InstanceIdMapper.clear, [],
        [("/graph/foo".toList, "/graph/bar".toList)], [], [], false⟩,
       some true,
       [.disconnectJack "system:foo".toList "system:bar".toList]⟩ := by
  decide

/-! ## Proofs: every mutation clears the board presets (C10) -/

theorem unaddress_presets (h : Host) (pd : PluginRecord) (port : PyStr) :
    (h.unaddress pd port).2.1.pedalboard_presets = h.pedalboard_presets := by
  unfold Host.unaddress
  rcases hd : dictPop pd.addressings port with _ | ⟨a, rest⟩ <;> simp

theorem removeUnaddressStep_presets (st : PluginRecord × Host × List PyStr)
    (entry : PyStr × Addressing) :
    (removeUnaddressStep st entry).2.1.pedalboard_presets =
      st.2.1.pedalboard_presets := by
  unfold removeUnaddressStep
  rcases hu : (st.2.1.unaddress st.1 entry.1).2.2 with _ | uri
  · simp [hu, unaddress_presets]
  · simp [hu, unaddress_presets]

theorem foldl_removeUnaddressStep_presets (entries : List (PyStr × Addressing)) :
    ∀ st : PluginRecord × Host × List PyStr,
      ((entries.foldl removeUnaddressStep st).2.1).pedalboard_presets =
        st.2.1.pedalboard_presets := by
  induction entries with
  | nil => intro st; rfl
  | cons e rest ih =>
      intro st
      rw [List.foldl_cons, ih, removeUnaddressStep_presets]

theorem foldl_address_next_presets (uris : List PyStr) :
    ∀ h : Host, (uris.foldl Host.address_next h).pedalboard_presets =
      h.pedalboard_presets := by
  induction uris with
  | nil => intro h; rfl
  | cons u rest ih => intro h; rw [List.foldl_cons, ih]; rfl

/-- C10: `add_plugin`, `remove_plugin`, `connect` and `disconnect` each reset
`pedalboard_presets` to the empty list at entry, on every execution path —
success, failure, or exception. -/
theorem mutations_reset_pedalboard_presets :
    (∀ (h : Host) (instanceName uri : PyStr) (x y : Rat)
        (inputs : List PortInfo) (monitoredOutputs : List PyStr) (resp : Int),
      (Host.add_plugin h instanceName uri x y inputs monitoredOutputs
        resp).host.pedalboard_presets = []) ∧
    (∀ (h : Host) (instanceName : PyStr) (engineOk : Bool),
      (Host.remove_plugin h instanceName engineOk).host.pedalboard_presets = []) ∧
    (∀ (h : Host) (port_from port_to : PyStr) (engineOk : Bool),
      (Host.connect h port_from port_to engineOk).host.pedalboard_presets = []) ∧
    (∀ (h : Host) (port_from port_to : PyStr) (jackOk : Bool),
      (Host.disconnect h port_from port_to jackOk).host.pedalboard_presets = []) := by
  refine ⟨?_, ?_, ?_, ?_⟩
  · intro h instanceName uri x y inputs monitoredOutputs resp
    unfold Host.add_plugin
    dsimp only
    split <;> rfl
  · intro h instanceName engineOk
    unfold Host.remove_plugin
    dsimp only
    rcases hm : ({ h with pedalboard_presets := ([] : List PedalboardPreset)
        } : Host).mapper.get_id_without_creating instanceName with _ | iid
    · simp [hm]
    · simp only [hm]
      rcases hp : dictPop ({ h with pedalboard_presets := ([] : List PedalboardPreset)
          } : Host).plugins iid with _ | ⟨data, plugins⟩
      · simp [hp]
      · simp only [hp]
        rw [foldl_address_next_presets, foldl_removeUnaddressStep_presets]
  · intro h port_from port_to engineOk
    unfold Host.connect
    dsimp only
    split
    · rfl
    · split
      · split <;> rfl
      · rfl
  · intro h port_from port_to jackOk
    unfold Host.disconnect
    dsimp only
    split
    · split <;> rfl
    · split
      · split <;> rfl
      · split
        · split <;> rfl
        · split <;> rfl
